import Mathlib

/-!
Verification of the jj-starship prompt tool against its design spec.

Shallow embedding conventions:
* A filesystem path is the list of its components with the innermost
  (deepest) component first; the filesystem root is `[]`.  `PathBuf::pop`
  is `List.tail` in this representation, and `a <:+ p` (list suffix)
  states that `a` is an ancestor of `p` (ancestors include `p` itself).
* The filesystem is abstracted by the two read-only existence checks
  `detect` performs: `current.join(".jj").is_dir()` and
  `current.join(".git").exists()`.
* Machine integers are `Nat`; commit ids are abstracted as `Nat`.
* Fallible repository loading is an `Except`, matching the Rust `Result`.
-/

namespace JjStarship

/-- A path, as its list of components, deepest component first; `[]` is the
filesystem root. -/
abbrev Path := List String

/-- Abstract read-only filesystem state, exposing exactly the two marker
checks made by `detect` (src/detect.rs lines 32-33). -/
structure FS where
  /-- `current.join(".jj").is_dir()` -/
  hasJjDir : Path → Bool
  /-- `current.join(".git").exists()` (file or directory) -/
  hasGitEntry : Path → Bool

/-- `RepoType` from src/detect.rs. -/
inductive RepoType where
  | jj
  | jjColocated
  | git
  | none
deriving DecidableEq, Repr

/-- `DetectResult` from src/detect.rs. -/
structure DetectResult where
  repo_type : RepoType
  repo_root : Option Path
deriving DecidableEq, Repr

/-- The classification computed inside the loop of `detect`
(src/detect.rs lines 32-40). -/
def repoTypeAt (fs : FS) (p : Path) : RepoType :=
  match fs.hasJjDir p, fs.hasGitEntry p with
  | true, true => RepoType.jjColocated
  | true, false => RepoType.jj
  | false, true => RepoType.git
  | false, false => RepoType.none

/-- `detect` from src/detect.rs lines 28-59: walk up from `start`,
returning the first ancestor with a non-`none` classification, else
`⟨none, none⟩` after testing the filesystem root. -/
def detect (fs : FS) : Path → DetectResult
  | [] =>
    let t := repoTypeAt fs []
    if t ≠ RepoType.none then ⟨t, some []⟩
    else ⟨RepoType.none, Option.none⟩
  | c :: rest =>
    let t := repoTypeAt fs (c :: rest)
    if t ≠ RepoType.none then ⟨t, some (c :: rest)⟩
    else detect fs rest

/-- `in_repo` from src/detect.rs lines 63-65. -/
def in_repo (fs : FS) (start : Path) : Bool :=
  decide ((detect fs start).repo_type ≠ RepoType.none)

/-- The list of directories tested by the walk of `detect`, in the order
they are tested; instrumentation of src/detect.rs lines 31-53. -/
def detect_visited (fs : FS) : Path → List Path
  | [] => [[]]
  | c :: rest =>
    if repoTypeAt fs (c :: rest) ≠ RepoType.none then [c :: rest]
    else (c :: rest) :: detect_visited fs rest

/-- `ExitCode::SUCCESS`. -/
def SUCCESS : Nat := 0

/-- `ExitCode::FAILURE`. -/
def FAILURE : Nat := 1

/-- The `Command::Detect` branch of `main` (src/main.rs lines 173-179):
exit 0 when in a repo, exit 1 otherwise. -/
def main_detect (fs : FS) (cwd : Path) : Nat :=
  if in_repo fs cwd then SUCCESS else FAILURE

/-- `Error` of the crate (src/error.rs is referenced from src/jj.rs as
`Error::Jj(String)`). -/
inductive Error where
  | jj (msg : String)
deriving DecidableEq, Repr

/-- `JjInfo` from src/jj.rs lines 17-32. -/
structure JjInfo where
  change_id : String
  bookmark : Option String
  empty_desc : Bool
  conflict : Bool
  divergent : Bool
  has_remote : Bool
  is_synced : Bool
deriving DecidableEq, Repr

/-- One entry yielded by `view.remote_bookmarks_matching` in src/jj.rs
lines 111-115: the bookmark's name, its remote's name, and
`remote_ref.target.as_normal()` (the single target commit id when the ref
target is normal, `none` when absent or conflicted). -/
structure RemoteBookmark where
  name : String
  remote : String
  target : Option Nat
deriving DecidableEq, Repr

/-- The read-only facts `collect` extracts from the loaded repository view
(src/jj.rs lines 68-111), abstracting the jj_lib backend:
`wc_id` is the working-copy commit id; `change_id_full` is
`encode_reverse_hex(commit.change_id().as_bytes())`; `description` and
`has_conflict` come from the working-copy commit; `resolve_change_id` is
the outcome of `repo.resolve_change_id(commit.change_id())`;
`local_bookmarks_for_wc` lists `view.local_bookmarks_for_commit(wc_id)`
names in iteration order; `remote_bookmarks` lists all remote bookmarks of
the view, which `remote_bookmarks_matching` filters by exact name. -/
structure RepoView where
  wc_id : Nat
  change_id_full : String
  description : String
  has_conflict : Bool
  resolve_change_id : Except Error (Option (List Nat))
  local_bookmarks_for_wc : List String
  remote_bookmarks : List RemoteBookmark

/-- The change-id truncation of src/jj.rs line 84:
`change_id_full[..id_length.min(change_id_full.len())]` (the encoded id is
ASCII, so Rust's byte slicing is character slicing). -/
def truncate_change_id (full : String) (id_length : Nat) : String :=
  String.mk (full.data.take (min id_length full.data.length))

/-- The divergence check of src/jj.rs lines 93-97:
`resolve_change_id(..).ok().flatten().is_some_and(|commits| commits.len() > 1)`. -/
def divergent_flag (res : Except Error (Option (List Nat))) : Bool :=
  match res.toOption.join with
  | some commits => decide (commits.length > 1)
  | Option.none => false

/-- The remote-sync computation of src/jj.rs lines 106-119: with a
bookmark, fold over the remote bookmarks matching its name exactly,
excluding the reserved "git" remote; without a bookmark, `(false, true)`. -/
def remote_sync (bookmark : Option String) (wc_id : Nat)
    (remotes : List RemoteBookmark) : Bool × Bool :=
  match bookmark with
  | some bm_name =>
    ((remotes.filter (fun r => r.name == bm_name)).filter
        (fun r => r.remote != "git")).foldl
      (fun acc r =>
        let this_synced :=
          match r.target with
          | some id => id == wc_id
          | Option.none => false
        (true, acc.2 || this_synced))
      (false, false)
  | Option.none => (false, true)

/-- The pure tail of `collect` (src/jj.rs lines 82-129), once the
repository view has been loaded. -/
def collect_view (v : RepoView) (id_length : Nat) : JjInfo :=
  let change_id := truncate_change_id v.change_id_full id_length
  let empty_desc := v.description.trim.isEmpty
  let conflict := v.has_conflict
  let divergent := divergent_flag v.resolve_change_id
  let bookmark := v.local_bookmarks_for_wc.head?
  let hs := remote_sync bookmark v.wc_id v.remote_bookmarks
  { change_id := change_id, bookmark := bookmark, empty_desc := empty_desc,
    conflict := conflict, divergent := divergent,
    has_remote := hs.1, is_synced := hs.2 }

/-- `collect` from src/jj.rs lines 52-130: the fallible loading steps
(settings, workspace, repo, working-copy commit; lines 53-80) are
abstracted as the `loaded` argument; every later step is infallible. -/
def collect (loaded : Except Error RepoView) (id_length : Nat) :
    Except Error JjInfo :=
  loaded.map (fun v => collect_view v id_length)

/-- `run_prompt` from src/main.rs lines 189-209, with the backend
collectors and formatters abstracted (`jj::collect` applied at the repo
root, `output::format_jj`, and likewise for the git feature; `GitInfo` is
the git collector's record type).  Returns the printed output, `none` for
the silent-failure path. -/
def run_prompt {GitInfo : Type} (fs : FS) (cwd : Path)
    (collect_jj : Path → Except Error JjInfo)
    (format_jj : JjInfo → String)
    (collect_git : Path → Except Error GitInfo)
    (format_git : GitInfo → String) : Option String :=
  let result := detect fs cwd
  match result.repo_type with
  | RepoType.jj | RepoType.jjColocated =>
    result.repo_root.bind fun repo_root =>
      (collect_jj repo_root).toOption.map fun info => format_jj info
  | RepoType.git =>
    result.repo_root.bind fun repo_root =>
      (collect_git repo_root).toOption.map fun info => format_git info
  | RepoType.none => Option.none

/-- The `Command::Prompt` branch of `main` (src/main.rs lines 165-172):
first component is what is printed to stdout (`none` = nothing printed),
second is the process exit code. -/
def main_prompt {GitInfo : Type} (fs : FS) (cwd : Path)
    (collect_jj : Path → Except Error JjInfo)
    (format_jj : JjInfo → String)
    (collect_git : Path → Except Error GitInfo)
    (format_git : GitInfo → String) : Option String × Nat :=
  match run_prompt fs cwd collect_jj format_jj collect_git format_git with
  | some output => (some output, SUCCESS)
  | Option.none => (Option.none, FAILURE)

/-- `DisplayFlags` (src/main.rs lines 127-134 construct it; the struct
lives in src/config.rs, shape fixed by the spec's data model). -/
structure DisplayFlags where
  no_prefix_flag : Bool
  no_name : Bool
  no_id : Bool
  no_status : Bool
  no_color : Bool
  no_prefix_color : Bool
deriving DecidableEq, Repr

/-- `DisplayFlags::default()`: all flags off. -/
def DisplayFlags.default : DisplayFlags :=
  ⟨false, false, false, false, false, false⟩

/-- The resolved configuration (spec §3 "Config"). -/
structure Config where
  truncate_name : Nat
  id_length : Nat
  ancestor_bookmark_depth : Nat
  bookmarks_display_limit : Nat
  strip_prefixes : List String
  jj_symbol : String
  git_symbol : String
  no_symbol : Bool
  jj_flags : DisplayFlags
  git_flags : DisplayFlags
deriving DecidableEq, Repr

/-- Modelled from the spec: `Config::new` lives in src/config.rs, which is
not included under src/ (only its caller in src/main.rs lines 151-162 and
the test at lines 306-329 are).  Per spec §4.4 resolution is a total
field-by-field merge of optional overrides over hardcoded defaults
(id_length = 8, truncate_name = 0, design-default symbols, depth 10,
display limit 3), with the one cross-field rule that `no_symbol`
unconditionally forces both symbols to the empty string. -/
def Config.new (truncate_name id_length ancestor_bookmark_depth
    bookmarks_display_limit : Option Nat)
    (strip_bookmark_prefixes : Option String)
    (jj_symbol git_symbol : Option String) (no_symbol : Bool)
    (jj_flags git_flags : DisplayFlags) : Config :=
  { truncate_name := truncate_name.getD 0,
    id_length := id_length.getD 8,
    ancestor_bookmark_depth := ancestor_bookmark_depth.getD 10,
    bookmarks_display_limit := bookmarks_display_limit.getD 3,
    strip_prefixes :=
      match strip_bookmark_prefixes with
      | some s => s.splitOn ","
      | Option.none => [],
    jj_symbol := if no_symbol then "" else jj_symbol.getD "󱗆 ",
    git_symbol := if no_symbol then "" else git_symbol.getD " ",
    no_symbol := no_symbol,
    jj_flags := jj_flags,
    git_flags := git_flags }

/-! Helper lemmas about the upward walk. -/

theorem detect_nil (fs : FS) :
    detect fs [] =
      if repoTypeAt fs [] ≠ RepoType.none
      then ⟨repoTypeAt fs [], some []⟩
      else ⟨RepoType.none, Option.none⟩ := rfl

theorem detect_cons (fs : FS) (c : String) (rest : Path) :
    detect fs (c :: rest) =
      if repoTypeAt fs (c :: rest) ≠ RepoType.none
      then ⟨repoTypeAt fs (c :: rest), some (c :: rest)⟩
      else detect fs rest := rfl

/-- On a successful walk the reported kind is the classification of the
reported root, that classification is non-`none`, and the root is an
ancestor of the start. -/
theorem detect_root_spec (fs : FS) :
    ∀ (p : Path) (k : RepoType) (r : Path), detect fs p = ⟨k, some r⟩ →
      k = repoTypeAt fs r ∧ k ≠ RepoType.none ∧ r <:+ p := by
  intro p
  induction p with
  | nil =>
    intro k r h
    rw [detect_nil] at h
    by_cases hc : repoTypeAt fs [] = RepoType.none
    · simp [hc] at h
    · simp only [ne_eq, hc, not_false_eq_true, if_true, DetectResult.mk.injEq,
        Option.some.injEq] at h
      obtain ⟨hk, hr⟩ := h
      subst hk; subst hr
      exact ⟨rfl, hc, List.suffix_refl _⟩
  | cons c rest ih =>
    intro k r h
    rw [detect_cons] at h
    by_cases hc : repoTypeAt fs (c :: rest) = RepoType.none
    · simp only [ne_eq, hc, not_true_eq_false, if_false] at h
      obtain ⟨hk, hn, hs⟩ := ih k r h
      exact ⟨hk, hn, hs.trans (List.suffix_cons c rest)⟩
    · simp only [ne_eq, hc, not_false_eq_true, if_true, DetectResult.mk.injEq,
        Option.some.injEq] at h
      obtain ⟨hk, hr⟩ := h
      subst hk; subst hr
      exact ⟨rfl, hc, List.suffix_refl _⟩

/-- The walk halts at the first (nearest) classified ancestor: every
ancestor strictly nearer the start than the reported root is
unclassified. -/
theorem detect_nearest (fs : FS) :
    ∀ (p : Path) (k : RepoType) (r : Path), detect fs p = ⟨k, some r⟩ →
      ∀ a : Path, a <:+ p → r <:+ a → a ≠ r → repoTypeAt fs a = RepoType.none := by
  intro p
  induction p with
  | nil =>
    intro k r h a hap hra hne
    have : a = [] := List.suffix_nil.mp hap
    subst this
    have : r = [] := List.suffix_nil.mp (detect_root_spec fs [] k r h).2.2
    exact absurd this.symm hne
  | cons c rest ih =>
    intro k r h a hap hra hne
    rw [detect_cons] at h
    by_cases hc : repoTypeAt fs (c :: rest) = RepoType.none
    · simp only [ne_eq, hc, not_true_eq_false, if_false] at h
      rcases List.suffix_cons_iff.mp hap with hEq | hsuf
      · subst hEq; exact hc
      · exact ih k r h a hsuf hra hne
    · simp only [ne_eq, hc, not_false_eq_true, if_true, DetectResult.mk.injEq,
        Option.some.injEq] at h
      obtain ⟨hk, hr⟩ := h
      subst hr
      have hlen₁ : a.length ≤ (c :: rest).length := hap.length_le
      have hlen₂ : (c :: rest).length ≤ a.length := hra.length_le
      have : a = c :: rest := hap.eq_of_length (le_antisymm hlen₁ hlen₂)
      exact absurd this hne

/-- The root is absent exactly when the kind is `none`. -/
theorem detect_root_none_iff (fs : FS) :
    ∀ p : Path,
      (detect fs p).repo_root = Option.none ↔
      (detect fs p).repo_type = RepoType.none := by
  intro p
  induction p with
  | nil =>
    rw [detect_nil]
    by_cases hc : repoTypeAt fs [] = RepoType.none <;> simp [hc]
  | cons c rest ih =>
    rw [detect_cons]
    by_cases hc : repoTypeAt fs (c :: rest) = RepoType.none <;> simp [hc, ih]

/-- C4: if both markers are present at the ancestor the walk halts at, the
classification is `JjColocated`, never `Jj` or `Git`. -/
theorem detect_colocated_root (fs : FS) (p : Path) (k : RepoType) (r : Path)
    (h : detect fs p = ⟨k, some r⟩)
    (hjj : fs.hasJjDir r = true) (hgit : fs.hasGitEntry r = true) :
    k = RepoType.jjColocated := by
  have hk := (detect_root_spec fs p k r h).1
  rw [hk]
  unfold repoTypeAt
  rw [hjj, hgit]

/-- A filesystem with both markers everywhere. -/
def bothFS : FS := ⟨fun _ => true, fun _ => true⟩

theorem detect_colocated_root_witness :
    detect bothFS ["a"] = ⟨RepoType.jjColocated, some ["a"]⟩ ∧
    RepoType.jjColocated = RepoType.jjColocated :=
  ⟨rfl, detect_colocated_root bothFS ["a"] RepoType.jjColocated ["a"] rfl rfl rfl⟩

/-- C5: with no markers anywhere in the ancestor chain the walk reports
`kind = none, root = none`. -/
theorem detect_no_markers_none (fs : FS) (p : Path)
    (h : ∀ a : Path, a <:+ p → repoTypeAt fs a = RepoType.none) :
    detect fs p = ⟨RepoType.none, Option.none⟩ := by
  induction p with
  | nil =>
    rw [detect_nil]
    simp [h [] (List.suffix_refl _)]
  | cons c rest ih =>
    rw [detect_cons]
    simp only [ne_eq, h (c :: rest) (List.suffix_refl _), not_true_eq_false,
      if_false]
    exact ih fun a ha => h a (ha.trans (List.suffix_cons c rest))

/-- A filesystem with no markers anywhere. -/
def emptyFS : FS := ⟨fun _ => false, fun _ => false⟩

theorem detect_no_markers_none_witness :
    detect emptyFS ["b", "a"] = ⟨RepoType.none, Option.none⟩ :=
  detect_no_markers_none emptyFS ["b", "a"] fun _ _ => rfl

/-- C6: the root is `none` exactly when the kind is `none`, and a present
root is the nearest classified ancestor of the start: the walk only
ascends (the root is a suffix of the start in the deepest-first component
representation) and halts at the first match (every strictly nearer
ancestor is unclassified). -/
theorem detect_root_invariants (fs : FS) (p : Path) :
    ((detect fs p).repo_root = Option.none ↔
      (detect fs p).repo_type = RepoType.none) ∧
    (∀ r : Path, (detect fs p).repo_root = some r →
      r <:+ p ∧ repoTypeAt fs r ≠ RepoType.none ∧
      ∀ a : Path, a <:+ p → r <:+ a → a ≠ r →
        repoTypeAt fs a = RepoType.none) := by
  refine ⟨detect_root_none_iff fs p, fun r hr => ?_⟩
  have h : detect fs p = ⟨(detect fs p).repo_type, some r⟩ := by
    rw [← hr]
  obtain ⟨hk, hn, hs⟩ := detect_root_spec fs p (detect fs p).repo_type r h
  exact ⟨hs, hk ▸ hn, detect_nearest fs p (detect fs p).repo_type r h⟩

/-- A filesystem with a git marker only at the filesystem root. -/
def rootGitFS : FS := ⟨fun _ => false, fun p => p.isEmpty⟩

theorem detect_root_invariants_witness :
    ([] : Path) <:+ ["a"] ∧ repoTypeAt rootGitFS [] ≠ RepoType.none ∧
    ∀ a : Path, a <:+ ["a"] → ([] : Path) <:+ a → a ≠ [] →
      repoTypeAt rootGitFS a = RepoType.none :=
  (detect_root_invariants rootGitFS ["a"]).2 [] rfl

/-- C7: in detect mode the exit code is 0 exactly when the start is inside
a repository of any kind, and 1 exactly when it is not. -/
theorem detect_mode_exit_code (fs : FS) (p : Path) :
    (main_detect fs p = SUCCESS ↔
      ((detect fs p).repo_type = RepoType.jj ∨
       (detect fs p).repo_type = RepoType.jjColocated ∨
       (detect fs p).repo_type = RepoType.git)) ∧
    (main_detect fs p = FAILURE ↔
      (detect fs p).repo_type = RepoType.none) := by
  unfold main_detect in_repo SUCCESS FAILURE
  cases h : (detect fs p).repo_type <;> simp [h]

/-- C10: the walk terminates after testing at most one directory per path
component plus the filesystem root: the visited list is bounded by
`p.length + 1`, every visited directory is an ancestor of the start, and
the reported root (when present) is among the visited directories. -/
theorem detect_walk_bounded (fs : FS) (p : Path) :
    (detect_visited fs p).length ≤ p.length + 1 ∧
    (∀ a ∈ detect_visited fs p, a <:+ p) ∧
    (∀ r : Path, (detect fs p).repo_root = some r →
      r ∈ detect_visited fs p) := by
  induction p with
  | nil =>
    refine ⟨by simp [detect_visited], ?_, ?_⟩
    · intro a ha
      simp only [detect_visited, List.mem_singleton] at ha
      simp [ha]
    · intro r hr
      rw [detect_nil] at hr
      by_cases hc : repoTypeAt fs [] = RepoType.none
      · simp [hc] at hr
      · simp only [ne_eq, hc, not_false_eq_true, if_true] at hr
        simp only [Option.some.injEq] at hr
        simp [detect_visited, ← hr]
  | cons c rest ih =>
    obtain ⟨ih₁, ih₂, ih₃⟩ := ih
    by_cases hc : repoTypeAt fs (c :: rest) = RepoType.none
    · refine ⟨?_, ?_, ?_⟩
      · simp only [detect_visited, ne_eq, hc, not_true_eq_false, if_false,
          List.length_cons]
        omega
      · intro a ha
        simp only [detect_visited, ne_eq, hc, not_true_eq_false, if_false,
          List.mem_cons] at ha
        rcases ha with hEq | hmem
        · simp [hEq]
        · exact (ih₂ a hmem).trans (List.suffix_cons c rest)
      · intro r hr
        rw [detect_cons] at hr
        simp only [ne_eq, hc, not_true_eq_false, if_false] at hr
        simp only [detect_visited, ne_eq, hc, not_true_eq_false, if_false,
          List.mem_cons]
        exact Or.inr (ih₃ r hr)
    · refine ⟨?_, ?_, ?_⟩
      · simp only [detect_visited, ne_eq, hc, not_false_eq_true, if_true,
          List.length_singleton]
        omega
      · intro a ha
        simp only [detect_visited, ne_eq, hc, not_false_eq_true, if_true,
          List.mem_singleton] at ha
        simp [ha]
      · intro r hr
        rw [detect_cons] at hr
        simp only [ne_eq, hc, not_false_eq_true, if_true] at hr
        simp only [Option.some.injEq] at hr
        simp [detect_visited, hc, ← hr]

theorem detect_walk_bounded_witness :
    (detect_visited rootGitFS ["b", "a"]).length ≤ 3 ∧
    (["a"] : Path) <:+ ["b", "a"] ∧
    ([] : Path) ∈ detect_visited rootGitFS ["b", "a"] := by
  obtain ⟨h₁, h₂, h₃⟩ := detect_walk_bounded rootGitFS ["b", "a"]
  exact ⟨h₁, h₂ ["a"] (by decide), h₃ [] rfl⟩

/-! Helper lemmas about the remote-sync fold. -/

/-- The fold of src/jj.rs lines 113-116 in closed form: the first
component becomes `true` as soon as the folded list is non-empty, the
second accumulates a disjunction over the list. -/
theorem sync_foldl_eq (wc : Nat) :
    ∀ (l : List RemoteBookmark) (init : Bool × Bool),
      (l.foldl (fun acc r =>
        let this_synced :=
          match r.target with
          | some id => id == wc
          | Option.none => false
        (true, acc.2 || this_synced)) init) =
      ((init.1 && l.isEmpty) || !l.isEmpty,
       init.2 || l.any (fun r =>
        match r.target with
        | some id => id == wc
        | Option.none => false)) := by
  intro l
  induction l with
  | nil => intro init; simp
  | cons r rs ih =>
    intro init
    rw [List.foldl_cons, ih]
    cases rs <;> simp [Bool.or_assoc]

/-- Characterization of `remote_sync` with a bookmark present. -/
theorem remote_sync_spec (bm : String) (wc : Nat)
    (remotes : List RemoteBookmark) :
    ((remote_sync (some bm) wc remotes).1 = true ↔
      ∃ r ∈ remotes, r.name = bm ∧ r.remote ≠ "git") ∧
    ((remote_sync (some bm) wc remotes).2 = true ↔
      ∃ r ∈ remotes, r.name = bm ∧ r.remote ≠ "git" ∧
        r.target = some wc) := by
  simp only [remote_sync]
  rw [sync_foldl_eq]
  constructor
  · simp only [Bool.false_and, Bool.false_or, Bool.not_eq_true']
    rw [List.isEmpty_eq_false]
    constructor
    · intro hne
      rcases List.exists_mem_of_ne_nil _ hne with ⟨r, hr⟩
      rw [List.mem_filter, List.mem_filter] at hr
      obtain ⟨⟨hmem, hname⟩, hremote⟩ := hr
      exact ⟨r, hmem, by simpa using hname, by simpa using hremote⟩
    · rintro ⟨r, hmem, hname, hremote⟩
      refine List.ne_nil_of_mem (a := r) ?_
      rw [List.mem_filter, List.mem_filter]
      exact ⟨⟨hmem, by simpa using hname⟩, by simpa using hremote⟩
  · simp only [Bool.false_or, List.any_eq_true]
    constructor
    · rintro ⟨r, hr, hs⟩
      rw [List.mem_filter, List.mem_filter] at hr
      obtain ⟨⟨hmem, hname⟩, hremote⟩ := hr
      refine ⟨r, hmem, by simpa using hname, by simpa using hremote, ?_⟩
      cases ht : r.target with
      | none => rw [ht] at hs; cases hs
      | some id => rw [ht] at hs; simpa using hs
    · rintro ⟨r, hmem, hname, hremote, ht⟩
      refine ⟨r, ?_, ?_⟩
      · rw [List.mem_filter, List.mem_filter]
        exact ⟨⟨hmem, by simpa using hname⟩, by simpa using hremote⟩
      · rw [ht]; simp

/-- C2: when a bookmark is present, `has_remote` holds iff some remote
bookmark of the same name exists outside the reserved "git" remote, and
`is_synced` holds iff some such remote bookmark's target is exactly the
working-copy commit id; with no bookmark, `has_remote = false` and
`is_synced = true`. -/
theorem collect_remote_sync_spec (v : RepoView) (n : Nat) :
    ((collect_view v n).bookmark = Option.none →
      (collect_view v n).has_remote = false ∧
      (collect_view v n).is_synced = true) ∧
    (∀ bm : String, (collect_view v n).bookmark = some bm →
      (((collect_view v n).has_remote = true ↔
          ∃ r ∈ v.remote_bookmarks, r.name = bm ∧ r.remote ≠ "git") ∧
       ((collect_view v n).is_synced = true ↔
          ∃ r ∈ v.remote_bookmarks, r.name = bm ∧ r.remote ≠ "git" ∧
            r.target = some v.wc_id))) := by
  have hbm : (collect_view v n).bookmark = v.local_bookmarks_for_wc.head? := rfl
  have hr : (collect_view v n).has_remote =
      (remote_sync v.local_bookmarks_for_wc.head? v.wc_id
        v.remote_bookmarks).1 := rfl
  have hsy : (collect_view v n).is_synced =
      (remote_sync v.local_bookmarks_for_wc.head? v.wc_id
        v.remote_bookmarks).2 := rfl
  constructor
  · intro hnone
    rw [hbm] at hnone
    rw [hr, hsy, hnone]
    exact ⟨rfl, rfl⟩
  · intro bm hsome
    rw [hbm] at hsome
    rw [hr, hsy, hsome]
    exact remote_sync_spec bm v.wc_id v.remote_bookmarks

/-- A concrete repository view: bookmark "main", one matching remote
bookmark on "origin" synced to the working-copy commit, one on the
reserved "git" remote. -/
def exViewSync : RepoView :=
  { wc_id := 5, change_id_full := "kkkkkkkk", description := "msg",
    has_conflict := false, resolve_change_id := Except.ok (some [5]),
    local_bookmarks_for_wc := ["main"],
    remote_bookmarks :=
      [⟨"main", "origin", some 5⟩, ⟨"main", "git", some 9⟩] }

theorem collect_remote_sync_spec_witness :
    (collect_view exViewSync 8).has_remote = true ∧
    (collect_view exViewSync 8).is_synced = true := by
  have h := (collect_remote_sync_spec exViewSync 8).2 "main" rfl
  exact ⟨h.1.mpr ⟨⟨"main", "origin", some 5⟩, by decide, rfl, by decide⟩,
    h.2.mpr ⟨⟨"main", "origin", some 5⟩, by decide, rfl, by decide, rfl⟩⟩

/-- C3: the displayed change id is the first `id_length` characters of the
full encoded change id, and an `id_length` at least the id's length
returns the full id unmodified. -/
theorem collect_change_id_truncation (v : RepoView) (n : Nat) :
    (collect_view v n).change_id =
      String.mk (v.change_id_full.data.take n) ∧
    (v.change_id_full.data.length ≤ n →
      (collect_view v n).change_id = v.change_id_full) := by
  have h1 : (collect_view v n).change_id =
      String.mk (v.change_id_full.data.take
        (min n v.change_id_full.data.length)) := rfl
  constructor
  · rw [h1, ← List.take_take, List.take_length]
  · intro hle
    rw [h1, min_eq_right hle, List.take_length]

/-- A concrete repository view whose change id is "zzzzzzzzaaaaaaaa". -/
def exViewId : RepoView :=
  { wc_id := 0, change_id_full := "zzzzzzzzaaaaaaaa", description := "",
    has_conflict := false, resolve_change_id := Except.ok Option.none,
    local_bookmarks_for_wc := [], remote_bookmarks := [] }

theorem collect_change_id_truncation_witness :
    (collect_view exViewId 8).change_id = "zzzzzzzz" ∧
    (collect_view exViewId 20).change_id = "zzzzzzzzaaaaaaaa" := by
  refine ⟨?_, (collect_change_id_truncation exViewId 20).2 (by decide)⟩
  rw [(collect_change_id_truncation exViewId 8).1]
  rfl

/-- C9: when resolving the working revision's change id fails or finds no
entry, the divergence flag is `false` and `collect` still succeeds — the
failure is swallowed into the flag, never into a collection error. -/
theorem collect_divergent_failure_swallowed (v : RepoView) (n : Nat)
    (h : (∃ e, v.resolve_change_id = Except.error e) ∨
         v.resolve_change_id = Except.ok Option.none) :
    (collect_view v n).divergent = false ∧
    collect (Except.ok v) n = Except.ok (collect_view v n) := by
  refine ⟨?_, rfl⟩
  show divergent_flag v.resolve_change_id = false
  rcases h with ⟨e, he⟩ | he <;> rw [he] <;> rfl

/-- A concrete repository view whose change-id resolution fails. -/
def exViewDiv : RepoView :=
  { wc_id := 0, change_id_full := "kkkkkkkk", description := "",
    has_conflict := false,
    resolve_change_id := Except.error (Error.jj "resolve failed"),
    local_bookmarks_for_wc := [], remote_bookmarks := [] }

theorem collect_divergent_failure_swallowed_witness :
    (collect_view exViewDiv 8).divergent = false ∧
    collect (Except.ok exViewDiv) 8 = Except.ok (collect_view exViewDiv 8) :=
  collect_divergent_failure_swallowed exViewDiv 8
    (Or.inl ⟨Error.jj "resolve failed", rfl⟩)

/-- A jj collector that always fails. -/
def failCollectJj : Path → Except Error JjInfo :=
  fun _ => Except.error (Error.jj "load workspace: failed")

/-- A git collector (over a unit info record) that always fails. -/
def failCollectGit : Path → Except Error Unit :=
  fun _ => Except.error (Error.jj "git open failed")

/-- C1, counterexample to the claim as stated: invoked outside any
repository, the default prompt mode emits no output but exits with
`ExitCode::FAILURE` (src/main.rs lines 166-171), not successfully. -/
theorem prompt_no_repo_exit_cex :
    (main_prompt emptyFS ["a"] failCollectJj (fun _ => "")
      failCollectGit (fun _ => "")).1 = Option.none ∧
    (main_prompt emptyFS ["a"] failCollectJj (fun _ => "")
      failCollectGit (fun _ => "")).2 ≠ SUCCESS := by
  exact ⟨rfl, by decide⟩

/-- C1 amended: for every invocation in which no repository is found or
status collection fails, the default prompt mode emits no output and exits
with failure (exit code 1); collection failures are swallowed as far as
output and diagnostics go, but they do surface as a failing exit code. -/
theorem prompt_silent_failure {GitInfo : Type} (fs : FS) (cwd : Path)
    (collect_jj : Path → Except Error JjInfo) (format_jj : JjInfo → String)
    (collect_git : Path → Except Error GitInfo)
    (format_git : GitInfo → String)
    (h : (detect fs cwd).repo_type = RepoType.none ∨
         ∀ r : Path, (collect_jj r).toOption = Option.none ∧
                     (collect_git r).toOption = Option.none) :
    main_prompt fs cwd collect_jj format_jj collect_git format_git =
      (Option.none, FAILURE) := by
  have hout : run_prompt fs cwd collect_jj format_jj collect_git format_git
      = Option.none := by
    rcases h with h | h
    · simp [run_prompt, h]
    · cases hk : (detect fs cwd).repo_type with
      | none => simp [run_prompt, hk]
      | jj =>
        simp only [run_prompt, hk]
        cases hroot : (detect fs cwd).repo_root with
        | none => rfl
        | some r => simp [Option.bind, (h r).1]
      | jjColocated =>
        simp only [run_prompt, hk]
        cases hroot : (detect fs cwd).repo_root with
        | none => rfl
        | some r => simp [Option.bind, (h r).1]
      | git =>
        simp only [run_prompt, hk]
        cases hroot : (detect fs cwd).repo_root with
        | none => rfl
        | some r => simp [Option.bind, (h r).2]
  simp [main_prompt, hout]

theorem prompt_silent_failure_witness :
    main_prompt emptyFS ["b"] failCollectJj (fun _ => "")
      failCollectGit (fun _ => "") = (Option.none, FAILURE) :=
  prompt_silent_failure emptyFS ["b"] failCollectJj (fun _ => "")
    failCollectGit (fun _ => "") (Or.inl rfl)

/-- C8: `no_symbol = true` forces both resolved symbol strings to the
empty string, regardless of every other override, including explicitly
supplied custom symbols. -/
theorem config_no_symbol_forces_empty_symbols
    (tn il abd bdl : Option Nat) (sbp : Option String)
    (js gs : Option String) (jf gf : DisplayFlags) :
    (Config.new tn il abd bdl sbp js gs true jf gf).jj_symbol = "" ∧
    (Config.new tn il abd bdl sbp js gs true jf gf).git_symbol = "" :=
  ⟨rfl, rfl⟩

end JjStarship
